import Mathlib

/-!
Verification of the email-to-record reconciliation engine of the
FundingFlock / CareerSuite Google-Apps-Script backend.

The development shallowly embeds the two instantiations of the engine:

* the application tracker (`Dashboard.js`: `_trackerDataHandler`,
  `_processingEngine`, `markStaleApplicationsAsRejected`, `_callGeminiAPI`,
  configuration constants from the tracker `Config.js`), and
* the proposal tracker (`Main.js`: `_proposalDataHandler`,
  `_processingEngine`, `markStaleProposals`).  The proposal-side
  configuration file is not part of the sources; the definitions that
  depend on it are modelled from the specification and are marked as such.

Spreadsheet cells are modelled by `Cell` (a string or a date), dates and
timestamps by integers (the unit is a day), and rows by `List Cell` indexed
with the 1-based column constants of the source.  Status ranks in the
source configuration are the decimals 1, 2, 3, 4, 4.1, 4.2, 4.3, 4.5, 5,
6, 0, -1, 0.5, -2; they are embedded as integers scaled by ten
(10, 20, 30, 40, 41, 42, 43, 45, 50, 60, 0, -10, 5, -20), which preserves
every comparison the code performs.
-/

/-- Value stored in one spreadsheet cell: a string or a date/timestamp. -/
inductive Cell where
| str : String → Cell
| date : Int → Cell
deriving DecidableEq, Repr

/-- JavaScript `String(x)` for a cell value (dates stringify to their number here;
the code only ever stringifies status cells, which are strings in practice). -/
def cellStr : Cell → String
| .str s => s
| .date t => toString t

/-- JavaScript falsiness of a cell value: the empty string is falsy, any date is truthy. -/
def cellFalsy : Cell → Bool
| .str s => s == ""
| .date _ => false

/-- JavaScript `a || b` on strings: returns `b` when `a` is the empty string. -/
def jsOrS (a b : String) : String := if a = "" then b else a

/-- JavaScript `a || b` where `a` may be `null` (modelled by `none`) or a string. -/
def jsOrOptS : Option String → String → String
| none, d => d
| some s, d => jsOrS s d

/-- JavaScript `cellValue || b` giving a string, as used for `peakStatus || statInSheet`. -/
def jsOrCell (a : Cell) (b : String) : String := if cellFalsy a then b else cellStr a

/-- JavaScript `new Date(cell) < threshold`: true when the cell is a date older than
`t`; a non-date cell yields an invalid date, whose comparisons are all false. -/
def cellDateBefore (c : Cell) (t : Int) : Bool :=
match c with
| .date d => d < t
| .str _ => false

/-- JavaScript `toLowerCase()`. -/
def jsToLower (s : String) : String := ⟨s.data.map Char.toLower⟩

/-- JavaScript `trim()`. -/
def jsTrim (s : String) : String :=
⟨((s.data.dropWhile Char.isWhitespace).reverse.dropWhile Char.isWhitespace).reverse⟩

namespace App

/-! Configuration constants of the application tracker (`Config.js`, src/unnamed/part_004). -/

def DEFAULT_STATUS : String := "Applied"
def INTERVIEW_STATUS : String := "Interviewing"
def OFFER_STATUS : String := "Offer"
def REJECTED_STATUS : String := "Rejected"
def KEEP_IN_VIEW_STATUS : String := "Keep In View"
def WITHDRAWN_STATUS : String := "Withdrawn"
def ACCEPTED_STATUS : String := "Accepted Offer"
def ASSESSMENT_STATUS : String := "Assessment"
def APPLICATION_VIEWED_STATUS : String := "Application Viewed"
def MANUAL_REVIEW_NEEDED : String := "Manual Review Needed"
def DEFAULT_PLATFORM : String := "Email/Website"

def PROCESSED_TIMESTAMP_COL : Nat := 1
def EMAIL_DATE_COL : Nat := 2
def PLATFORM_COL : Nat := 3
def COMPANY_COL : Nat := 4
def JOB_TITLE_COL : Nat := 5
def STATUS_COL : Nat := 6
def PEAK_STATUS_COL : Nat := 7
def LAST_UPDATE_DATE_COL : Nat := 8
def EMAIL_SUBJECT_COL : Nat := 9
def EMAIL_LINK_COL : Nat := 10
def EMAIL_ID_COL : Nat := 11
def NOTES_COL : Nat := 12
def TOTAL_COLUMNS_IN_APP_SHEET : Nat := 12

/-- Rank table `STATUS_HIERARCHY` of the application tracker, scaled by ten. -/
def STATUS_HIERARCHY : String → Option Int := fun s =>
if s = DEFAULT_STATUS then some 10
else if s = "Screening" then some 20
else if s = "Assessment" then some 30
else if s = INTERVIEW_STATUS then some 40
else if s = "Interview 1" then some 41
else if s = "Interview 2" then some 42
else if s = "Interview 3+" then some 43
else if s = "Final Interview" then some 45
else if s = OFFER_STATUS then some 50
else if s = ACCEPTED_STATUS then some 60
else if s = REJECTED_STATUS then some 0
else if s = WITHDRAWN_STATUS then some (-10)
else if s = KEEP_IN_VIEW_STATUS then some 5
else if s = MANUAL_REVIEW_NEEDED then some (-20)
else none

/-- JavaScript `STATUS_HIERARCHY[s] ?? 0`. -/
def rank (s : String) : Int := (STATUS_HIERARCHY s).getD 0

def FINAL_STATUSES_FOR_STALE_CHECK : List String :=
[REJECTED_STATUS, OFFER_STATUS, WITHDRAWN_STATUS, ACCEPTED_STATUS, MANUAL_REVIEW_NEEDED]

def WEEKS_THRESHOLD : Int := 8

/-- One candidate record of the application tracker at the reconciliation boundary
of `_trackerDataHandler`: the extracted fields plus the provenance of the message.
`applicationStatus` is `none` when extraction produced no status (JavaScript `null`). -/
structure Candidate where
  companyName : String
  jobTitle : String
  applicationStatus : Option String
  msgId : String
  emailSubject : String
  emailPermaLink : String
  emailDate : Int
  now : Int
deriving DecidableEq, Repr

/-- Source `const finalStatusToSet = applicationStatus || DEFAULT_STATUS`. -/
def finalStatusToSet (c : Candidate) : String := jsOrOptS c.applicationStatus DEFAULT_STATUS

/-- One entry of the in-memory `companyIndex` cache (`_processingEngine`,
Dashboard.js lines 1228-1236 for persisted rows, 1291-1298 for pending rows).
Pending rows carry `row = -1` and no `rowData` (modelled by `[]`). -/
structure CacheEntry where
  row : Int
  rowData : List Cell
  emailId : String
  company : String
  title : String
  status : Cell
  peakStatus : Cell
deriving DecidableEq, Repr

/-- Predicate of `potentialMatches.find(e => e.title && e.title.toLowerCase() === jobTitle.toLowerCase())`. -/
def titleMatches (c : Candidate) (e : CacheEntry) : Bool :=
e.title != "" && jsToLower e.title == jsToLower c.jobTitle

/-- Update-path row rewrite of `_trackerDataHandler` (Dashboard.js lines 1428-1448):
refresh provenance cells, apply the status-merge rule with the Rejected/Offer
override, then recompute the peak-status cell. -/
def trackerUpdateValues (c : Candidate) (e : CacheEntry) : List Cell :=
  let v1 := ((((e.rowData.set (PROCESSED_TIMESTAMP_COL - 1) (.date c.now)).set
      (LAST_UPDATE_DATE_COL - 1) (.date c.emailDate)).set
      (EMAIL_SUBJECT_COL - 1) (.str c.emailSubject)).set
      (EMAIL_LINK_COL - 1) (.str c.emailPermaLink)).set
      (EMAIL_ID_COL - 1) (.str c.msgId)
  let statInSheet := jsOrS (jsTrim (cellStr (v1.getD (STATUS_COL - 1) (.str "undefined")))) DEFAULT_STATUS
  let curRank := rank statInSheet
  let fin := finalStatusToSet c
  let newRank := rank fin
  let v2 := if newRank ≥ curRank || fin == REJECTED_STATUS || fin == OFFER_STATUS
    then v1.set (STATUS_COL - 1) (.str fin) else v1
  let statAfterUpd := cellStr (v2.getD (STATUS_COL - 1) (.str "undefined"))
  let peakStat := jsOrCell e.peakStatus statInSheet
  if rank statAfterUpd > rank peakStat
    then v2.set (PEAK_STATUS_COL - 1) (.str statAfterUpd) else v2

/-- Create-path row of `_trackerDataHandler` (Dashboard.js lines 1464-1475). -/
def createRowApp (c : Candidate) : List Cell :=
  (((((((((((List.replicate TOTAL_COLUMNS_IN_APP_SHEET (Cell.str "")).set
    (PROCESSED_TIMESTAMP_COL - 1) (.date c.now)).set
    (EMAIL_DATE_COL - 1) (.date c.emailDate)).set
    (PLATFORM_COL - 1) (.str DEFAULT_PLATFORM)).set
    (COMPANY_COL - 1) (.str c.companyName)).set
    (JOB_TITLE_COL - 1) (.str c.jobTitle)).set
    (STATUS_COL - 1) (.str (finalStatusToSet c))).set
    (PEAK_STATUS_COL - 1) (.str (finalStatusToSet c))).set
    (LAST_UPDATE_DATE_COL - 1) (.date c.emailDate)).set
    (EMAIL_SUBJECT_COL - 1) (.str c.emailSubject)).set
    (EMAIL_LINK_COL - 1) (.str c.emailPermaLink)).set
    (EMAIL_ID_COL - 1) (.str c.msgId)

/-- Result of a `dataHandler` call as consumed by `_processingEngine`. -/
structure UpdateInfo where
  row : Int
  values : List Cell
  newStatus : Cell
  newPeakStatus : Cell
  company : Cell
deriving DecidableEq, Repr

structure HandlerResult where
  updateInfo : Option UpdateInfo
  newRowData : List (List Cell)
  requiresManualReview : Bool
deriving DecidableEq, Repr

/-- Reconciliation decision of `_trackerDataHandler` (Dashboard.js lines 1400-1481):
look up the exact (company, title) match unless a key needs manual review, take the
update path only for a persisted (`row != -1`) match, otherwise create a new row. -/
def trackerReconcile (c : Candidate) (companyIndex : String → List CacheEntry) : HandlerResult :=
  let requiresManualReview :=
    c.companyName == MANUAL_REVIEW_NEEDED || c.jobTitle == MANUAL_REVIEW_NEEDED
  let existingRowInfoToUpdate : Option CacheEntry :=
    if c.companyName ≠ MANUAL_REVIEW_NEEDED ∧ c.jobTitle ≠ MANUAL_REVIEW_NEEDED then
      (companyIndex (jsToLower c.companyName)).find? (titleMatches c)
    else none
  match existingRowInfoToUpdate with
  | some e =>
    if e.row ≠ -1 then
      let vals := trackerUpdateValues c e
      let u : UpdateInfo :=
        { row := e.row, values := vals,
          newStatus := vals.getD (STATUS_COL - 1) (.str "undefined"),
          newPeakStatus := vals.getD (PEAK_STATUS_COL - 1) (.str "undefined"),
          company := vals.getD (COMPANY_COL - 1) (.str "undefined") }
      { updateInfo := some u,
        newRowData := [], requiresManualReview := requiresManualReview }
    else
      { updateInfo := none, newRowData := [createRowApp c],
        requiresManualReview := requiresManualReview }
  | none =>
    { updateInfo := none, newRowData := [createRowApp c],
      requiresManualReview := requiresManualReview }

/-- Live-cache bookkeeping of `_processingEngine` (Dashboard.js lines 1277-1285)
for one existing entity: run the handler against the singleton index holding the
entity's cache entry; on an update, patch the entry's `status` and `peakStatus`
(but, exactly as in the source, not its `rowData`) and record the row values
queued for the batch write. -/
def engineApplyToEntry (e : CacheEntry) (c : Candidate) : CacheEntry × Option (List Cell) :=
  let res := trackerReconcile c (fun k => if k = jsToLower e.company then [e] else [])
  match res.updateInfo with
  | some u => ({ e with status := u.newStatus, peakStatus := u.newPeakStatus }, some u.values)
  | none => (e, none)

/-- Guard of the index-building loop (Dashboard.js line 1223): the company cell
must be a nonempty (after trimming) string. -/
def companyCellOk : Cell → Bool
| .str s => !(jsTrim s == "")
| .date _ => false

/-- Cache entry built from sheet row `i` (0-based array index, sheet row `i + 1`). -/
def rowCacheEntry (i : Nat) (rowData : List Cell) : CacheEntry :=
  { row := (i : Int) + 1, rowData := rowData,
    emailId := cellStr (rowData.getD (EMAIL_ID_COL - 1) (.str "")),
    company := cellStr (rowData.getD (COMPANY_COL - 1) (.str "")),
    title := cellStr (rowData.getD (JOB_TITLE_COL - 1) (.str "")),
    status := rowData.getD (STATUS_COL - 1) (.str ""),
    peakStatus := rowData.getD (PEAK_STATUS_COL - 1) (.str "") }

/-- Cache entries produced by scanning rows starting at array index `i`
(Dashboard.js lines 1220-1239). -/
def buildEntriesFrom : Nat → List (List Cell) → List CacheEntry
| _, [] => []
| i, r :: rest =>
  (if companyCellOk (r.getD (COMPANY_COL - 1) (.str "")) then [rowCacheEntry i r] else [])
    ++ buildEntriesFrom (i + 1) rest

/-- The `companyIndex` map: `get(key)` returns the entries whose lowercased company
equals `key`, in row order (the loop starts at array index 1, skipping the header). -/
def buildIndexApp (allSheetData : List (List Cell)) (key : String) : List CacheEntry :=
  (buildEntriesFrom 1 (allSheetData.drop 1)).filter (fun e => jsToLower e.company == key)

/-- Membership test of `FINAL_STATUSES_FOR_STALE_CHECK.has(cell)`: the set holds
strings, so a date cell is never a member. -/
def isFinalStatus : Cell → Bool
| .str s => FINAL_STATUSES_FOR_STALE_CHECK.contains s
| .date _ => false

/-- Per-row action of `markStaleApplicationsAsRejected` (Dashboard.js lines 1555-1563). -/
def staleStepApp (now : Int) (row : List Cell) : List Cell :=
  let currentStatus := row.getD (STATUS_COL - 1) (.str "")
  let lastUpdate := row.getD (LAST_UPDATE_DATE_COL - 1) (.str "")
  if !isFinalStatus currentStatus && cellDateBefore lastUpdate (now - WEEKS_THRESHOLD * 7) then
    (row.set (STATUS_COL - 1) (.str REJECTED_STATUS)).set (LAST_UPDATE_DATE_COL - 1) (.date now)
  else row

/-- The stale sweep `markStaleApplicationsAsRejected`: the loop runs over rows
1..n-1, leaving the header row 0 unchanged. -/
def markStaleApplications (sheetValues : List (List Cell)) (now : Int) : List (List Cell) :=
  match sheetValues with
  | [] => []
  | header :: rows => header :: rows.map (staleStepApp now)

/-- Row-targeted write `dataSheet.getRange(update.row, 1, 1, update.values.length).setValues(...)`
performed by `_processingEngine` for each queued update (row numbers are 1-based). -/
def applyUpdateWrite (sheet : List (List Cell)) (row : Int) (values : List Cell) : List (List Cell) :=
  sheet.set (row - 1).toNat values

end App

namespace Proposal

/-! The proposal tracker (`Main.js`).  Its `Config.js` is not among the sources;
the constants below are modelled from the specification, anchored on the names
used by `Main.js`, on the dummy rows of `ModuleUtils.js` (which fix the column
layout) and on the status names used by the dashboard formulas. -/

/-- Modelled from the spec: the proposal-side status vocabulary (the proposal
`Config.js` is absent from the sources; names follow `Main.js`, `Dashboard.js`
and src/unnamed/part_002). -/
def STATUS_DRAFTING : String := "Drafting"

def STATUS_SUBMITTED : String := "Submitted"

def STATUS_UNDER_REVIEW : String := "Under Review"

def STATUS_AWARDED : String := "Awarded"

def STATUS_DECLINED : String := "Declined"

def STATUS_WITHDRAWN : String := "Withdrawn"

def MANUAL_REVIEW_NEEDED : String := "Manual Review Needed"

/-- Modelled from the spec: the proposal-side rank table (scaled integers).  The
spec orders forward progress Drafting < Submitted < Under Review < Awarded and
places the terminal negative outcome and the manual-review sentinel outside the
forward order, below the substantive statuses, mirroring the application table. -/
def STATUS_HIERARCHY : String → Option Int := fun s =>
if s = STATUS_DRAFTING then some 10
else if s = STATUS_SUBMITTED then some 20
else if s = STATUS_UNDER_REVIEW then some 30
else if s = STATUS_AWARDED then some 40
else if s = STATUS_DECLINED then some 0
else if s = STATUS_WITHDRAWN then some (-10)
else if s = MANUAL_REVIEW_NEEDED then some (-20)
else none

/-- JavaScript `STATUS_HIERARCHY[s] ?? 0`. -/
def rank (s : String) : Int := (STATUS_HIERARCHY s).getD 0

/-- Modelled from the spec: proposal-sheet column layout, fixed by the dummy rows
written in `ModuleUtils.js` (13 columns). -/
def PROP_PROC_TS_COL : Nat := 1

def PROP_SUBMIT_DATE_COL : Nat := 2

def PROP_FUNDER_COL : Nat := 3

def PROP_TITLE_COL : Nat := 4

def PROP_STATUS_COL : Nat := 5

def PROP_PEAK_STATUS_COL : Nat := 6

def PROP_LAST_UPDATE_COL : Nat := 7

def PROP_AMT_REQ_COL : Nat := 8

def PROP_AMT_AWARD_COL : Nat := 9

def PROP_EMAIL_SUBJ_COL : Nat := 10

def PROP_EMAIL_LINK_COL : Nat := 11

def PROP_EMAIL_ID_COL : Nat := 12

def PROP_NOTES_COL : Nat := 13

def TOTAL_COLUMNS_IN_PROPOSAL_SHEET : Nat := 13

/-- Modelled from the spec: the proposal-side terminal-status set for the stale
sweep (§4.6 with the award/decline/withdraw terminal outcomes and the
manual-review sentinel, mirroring the application-side set). -/
def FINAL_STATUSES_FOR_STALE_CHECK : List String :=
[STATUS_DECLINED, STATUS_AWARDED, STATUS_WITHDRAWN, MANUAL_REVIEW_NEEDED]

def WEEKS_THRESHOLD : Int := 8

/-- One candidate record of the proposal tracker: the non-null `geminiResult`
destructured by `_proposalDataHandler` plus the message provenance.
`callGemini_forProposalStatus` always returns strings (the manual-review sentinel
when unresolved), so `submissionStatus` is a plain string. -/
structure PCandidate where
  funderName : String
  proposalTitle : String
  submissionStatus : String
  msgId : String
  emailSubject : String
  emailPermaLink : String
  emailDate : Int
  now : Int
deriving DecidableEq, Repr

/-- One entry of the in-memory `funderIndex` cache (Main.js lines 217-229). -/
structure PCacheEntry where
  row : Int
  rowData : List Cell
  emailId : String
  funder : String
  title : String
  status : Cell
  peakStatus : Cell
deriving DecidableEq, Repr

/-- Predicate of `potentialMatches.find(e => e.title && e.title.toLowerCase() === proposalTitle.toLowerCase())`. -/
def titleMatches (c : PCandidate) (e : PCacheEntry) : Bool :=
e.title != "" && jsToLower e.title == jsToLower c.proposalTitle

/-- Update-path row rewrite of `_proposalDataHandler` (Main.js lines 289-307):
refresh provenance cells, apply the status-merge rule (forward-or-equal rank
only, no override branch), then recompute the peak-status cell. -/
def propUpdateValues (c : PCandidate) (e : PCacheEntry) : List Cell :=
  let v1 := (((e.rowData.set (PROP_LAST_UPDATE_COL - 1) (.date c.emailDate)).set
      (PROP_EMAIL_SUBJ_COL - 1) (.str c.emailSubject)).set
      (PROP_EMAIL_LINK_COL - 1) (.str c.emailPermaLink)).set
      (PROP_EMAIL_ID_COL - 1) (.str c.msgId)
  let currentStatus := jsOrS (jsTrim (cellStr (v1.getD (PROP_STATUS_COL - 1) (.str "undefined")))) STATUS_DRAFTING
  let currentRank := rank currentStatus
  let newRank := rank c.submissionStatus
  let v2 := if newRank ≥ currentRank
    then v1.set (PROP_STATUS_COL - 1) (.str c.submissionStatus) else v1
  let currentPeak := jsOrCell e.peakStatus currentStatus
  let peakRank := rank currentPeak
  let finalStatusRank := rank (cellStr (v2.getD (PROP_STATUS_COL - 1) (.str "undefined")))
  if finalStatusRank > peakRank
    then v2.set (PROP_PEAK_STATUS_COL - 1) (v2.getD (PROP_STATUS_COL - 1) (.str "undefined"))
    else v2

/-- Create-path row of `_proposalDataHandler` (Main.js lines 311-321). -/
def createRowProp (c : PCandidate) : List Cell :=
  (((((((((List.replicate TOTAL_COLUMNS_IN_PROPOSAL_SHEET (Cell.str "")).set
    (PROP_PROC_TS_COL - 1) (.date c.now)).set
    (PROP_SUBMIT_DATE_COL - 1) (.date c.emailDate)).set
    (PROP_FUNDER_COL - 1) (.str c.funderName)).set
    (PROP_TITLE_COL - 1) (.str c.proposalTitle)).set
    (PROP_STATUS_COL - 1) (.str (jsOrS c.submissionStatus STATUS_SUBMITTED))).set
    (PROP_PEAK_STATUS_COL - 1) (.str (jsOrS c.submissionStatus STATUS_SUBMITTED))).set
    (PROP_LAST_UPDATE_COL - 1) (.date c.emailDate)).set
    (PROP_EMAIL_SUBJ_COL - 1) (.str c.emailSubject)).set
    (PROP_EMAIL_LINK_COL - 1) (.str c.emailPermaLink) |>.set
    (PROP_EMAIL_ID_COL - 1) (.str c.msgId)

/-- Result of `_proposalDataHandler` (its `updateInfo` carries only the row and values). -/
structure PUpdateInfo where
  row : Int
  values : List Cell
deriving DecidableEq, Repr

structure PHandlerResult where
  updateInfo : Option PUpdateInfo
  newRowData : List (List Cell)
  requiresManualReview : Bool
deriving DecidableEq, Repr

/-- Reconciliation decision of `_proposalDataHandler` (Main.js lines 274-324):
look up the exact (funder, title) match unless a key needs manual review; an
existing match is always taken as the update target (there is no pending-row
guard here), otherwise a new row is created. -/
def propReconcile (c : PCandidate) (funderIndex : String → List PCacheEntry) : PHandlerResult :=
  let requiresManualReview :=
    c.funderName == MANUAL_REVIEW_NEEDED || c.proposalTitle == MANUAL_REVIEW_NEEDED
  let existingRowInfo : Option PCacheEntry :=
    if !requiresManualReview then
      (funderIndex (jsToLower c.funderName)).find? (titleMatches c)
    else none
  match existingRowInfo with
  | some e =>
    let u : PUpdateInfo := { row := e.row, values := propUpdateValues c e }
    { updateInfo := some u, newRowData := [],
      requiresManualReview := requiresManualReview }
  | none =>
    { updateInfo := none, newRowData := [createRowProp c],
      requiresManualReview := requiresManualReview }

/-- Guard of the index-building loop (Main.js line 220). -/
def funderCellOk : Cell → Bool
| .str s => !(jsTrim s == "")
| .date _ => false

/-- Cache entry built from sheet row `i` (0-based array index, sheet row `i + 1`). -/
def rowCacheEntry (i : Nat) (rowData : List Cell) : PCacheEntry :=
  { row := (i : Int) + 1, rowData := rowData,
    emailId := cellStr (rowData.getD (PROP_EMAIL_ID_COL - 1) (.str "")),
    funder := cellStr (rowData.getD (PROP_FUNDER_COL - 1) (.str "")),
    title := cellStr (rowData.getD (PROP_TITLE_COL - 1) (.str "")),
    status := rowData.getD (PROP_STATUS_COL - 1) (.str ""),
    peakStatus := rowData.getD (PROP_PEAK_STATUS_COL - 1) (.str "") }

/-- Cache entries produced by scanning rows starting at array index `i`. -/
def buildEntriesFrom : Nat → List (List Cell) → List PCacheEntry
| _, [] => []
| i, r :: rest =>
  (if funderCellOk (r.getD (PROP_FUNDER_COL - 1) (.str "")) then [rowCacheEntry i r] else [])
    ++ buildEntriesFrom (i + 1) rest

/-- The `funderIndex` map, by lowercased funder key, in row order. -/
def buildIndexProp (allSheetData : List (List Cell)) (key : String) : List PCacheEntry :=
  (buildEntriesFrom 1 (allSheetData.drop 1)).filter (fun e => jsToLower e.funder == key)

/-- Membership test of the proposal `FINAL_STATUSES_FOR_STALE_CHECK.has(cell)`. -/
def isFinalStatus : Cell → Bool
| .str s => FINAL_STATUSES_FOR_STALE_CHECK.contains s
| .date _ => false

/-- Note text appended to the notes cell by `markStaleProposals` (the source
renders the date with `toLocaleDateString`; the day number stands in for it). -/
def staleNoteText (now : Int) : String :=
" (Auto-updated to Declined on " ++ toString now ++ ")"

/-- Per-row action of `markStaleProposals` (Main.js lines 392-402).  Unlike the
application sweep it additionally requires the status cell to be truthy, and it
appends an audit note to the notes cell.  (The source also guards on the
truthiness of `new Date(...)`, which is always truthy in JavaScript.) -/
def staleStepProp (now : Int) (row : List Cell) : List Cell :=
  let currentStatus := row.getD (PROP_STATUS_COL - 1) (.str "")
  let lastUpdate := row.getD (PROP_LAST_UPDATE_COL - 1) (.str "")
  if !cellFalsy currentStatus && !isFinalStatus currentStatus
      && cellDateBefore lastUpdate (now - WEEKS_THRESHOLD * 7) then
    ((row.set (PROP_STATUS_COL - 1) (.str STATUS_DECLINED)).set
      (PROP_LAST_UPDATE_COL - 1) (.date now)).set (PROP_NOTES_COL - 1)
      (.str (jsTrim (cellStr (row.getD (PROP_NOTES_COL - 1) (.str "undefined")) ++ staleNoteText now)))
  else row

/-- The stale sweep `markStaleProposals`: the loop runs over rows 1..n-1,
leaving the header row 0 unchanged. -/
def markStaleProposals (sheetValues : List (List Cell)) (now : Int) : List (List Cell) :=
  match sheetValues with
  | [] => []
  | header :: rows => header :: rows.map (staleStepProp now)

/-- Row-targeted write performed by the proposal `_processingEngine` for each
queued update (Main.js line 252). -/
def applyUpdateWrite (sheet : List (List Cell)) (row : Int) (values : List Cell) : List (List Cell) :=
  sheet.set (row - 1).toNat values

end Proposal

namespace Engine

/-! Generic parts of `_processingEngine` shared by both instantiations
(Dashboard.js lines 1250-1314, Main.js lines 234-249). -/

/-- One fetched Gmail message as the engine sees it. -/
structure GMessage where
  msgId : String
  threadId : String
  date : Int
deriving DecidableEq, Repr

/-- Source `threadsToProcess.flatMap(thread => thread.getMessages())`. -/
def flattenMessages (threads : List (List GMessage)) : List GMessage := threads.flatten

/-- Insertion of one message into a list already sorted by ascending date. -/
def insertByDate (m : GMessage) : List GMessage → List GMessage
| [] => [m]
| x :: xs => if m.date ≤ x.date then m :: x :: xs else x :: insertByDate m xs

/-- Source `messagesToSort.sort((a, b) => a.getDate() - b.getDate())`: a stable
sort by ascending message date (insertion sort realizes the JavaScript contract:
the result is a permutation of the input ordered by the comparator). -/
def sortMessages : List GMessage → List GMessage
| [] => []
| m :: ms => insertByDate m (sortMessages ms)

/-- Outcome string recorded for a message:
`handlerResult.requiresManualReview ? 'manual' : 'done'`; a thrown error also
records `'manual'`.  `manualOrThrew` captures both. -/
structure MsgOutcome where
  threadId : String
  manualOrThrew : Bool
deriving DecidableEq, Repr

def outcomeOf (m : MsgOutcome) : String := if m.manualOrThrew then "manual" else "done"

/-- JavaScript object property assignment `obj[k] = v` on an insertion-ordered
string-keyed record. -/
def setOutcome (acc : List (String × String)) (k v : String) : List (String × String) :=
  if acc.any (fun p => p.1 == k) then
    acc.map (fun p => if p.1 == k then (k, v) else p)
  else acc ++ [(k, v)]

/-- JavaScript property read `obj[k]`. -/
def lookupOutcome (acc : List (String × String)) (k : String) : Option String :=
  (acc.find? (fun p => p.1 == k)).map (fun p => p.2)

/-- The `threadProcessingOutcomes` object after the message loop: for each
processed message, in order, `threadProcessingOutcomes[threadId] = outcome`
(Dashboard.js line 1306 and the catch at line 1310; Main.js lines 247-248). -/
def runThreadOutcomes (msgs : List MsgOutcome) : List (String × String) :=
  msgs.foldl (fun acc m => setOutcome acc m.threadId (outcomeOf m)) []

end Engine

namespace Gemini

/-! The retrying extractor call `_callGeminiAPI` (Dashboard.js lines 670-734).
The HTTP fetch and the two JSON parses are external; each attempt's outcome is
an element of the input list, consumed in order. -/

/-- Shape of one `UrlFetchApp.fetch` attempt: either the fetch (or the parsing
of its body, both inside the same `try`) throws, or it yields a response with
an HTTP code and a body. -/
inductive Body where
| notJson : Body
| noCandidateText : Body
| innerBad : Body
| innerGood : String → Body
deriving DecidableEq, Repr

inductive Attempt where
| exn : Attempt
| resp : Int → Body → Attempt
deriving DecidableEq, Repr

/-- The attempt loop of `_callGeminiAPI`, returning the call's result and the
number of fetch attempts actually performed.  Per source: a 200 response whose
body parses and contains `candidates[0].content.parts[0].text` returns the inner
parse (or `null` if the inner parse fails); a 200 response without that structure
returns `null`; a 200 response whose body fails `JSON.parse` throws inside the
`try` and is retried like a fetch exception; 429 retries; any other code returns
`null`; exhausting `maxAttempts` returns `null`. -/
def loop : Nat → List Attempt → Option String × Nat
| 0, _ => (none, 0)
| _ + 1, [] => (none, 0)
| n + 1, a :: rest =>
  match a with
  | .exn =>
    let r := loop n rest
    (r.1, r.2 + 1)
  | .resp code body =>
    if code = 200 then
      match body with
      | .notJson =>
        let r := loop n rest
        (r.1, r.2 + 1)
      | .noCandidateText => (none, 1)
      | .innerBad => (none, 1)
      | .innerGood v => (some v, 1)
    else if code = 429 then
      let r := loop n rest
      (r.1, r.2 + 1)
    else (none, 1)

/-- `_callGeminiAPI` with its default `maxAttempts = 2` (no caller overrides it). -/
def callGeminiAPI (attempts : List Attempt) : Option String × Nat := loop 2 attempts

end Gemini

/-- The merge rule's reading of the existing status
(`String(rowDataForSheet[STATUS_COL - 1]).trim() || DEFAULT_STATUS`); the
provenance writes preceding it do not touch the status column. -/
def App.statInSheet (e : App.CacheEntry) : String :=
jsOrS (jsTrim (cellStr (e.rowData.getD (App.STATUS_COL - 1) (.str "undefined")))) App.DEFAULT_STATUS

/-- The proposal merge rule's reading of the existing status
(`String(rowDataForSheet[PROP_STATUS_COL - 1]).trim() || STATUS_DRAFTING`). -/
def Proposal.statusInSheet (e : Proposal.PCacheEntry) : String :=
jsOrS (jsTrim (cellStr (e.rowData.getD (Proposal.PROP_STATUS_COL - 1) (.str "undefined")))) Proposal.STATUS_DRAFTING

/-- Whether a sheet row would both be indexed under the candidate's company key
and match the candidate's title in the index lookup of `_trackerDataHandler`. -/
def App.rowConflicts (c : App.Candidate) (r : List Cell) : Bool :=
App.companyCellOk (r.getD (App.COMPANY_COL - 1) (.str "")) &&
  (jsToLower (cellStr (r.getD (App.COMPANY_COL - 1) (.str ""))) == jsToLower c.companyName) &&
  (cellStr (r.getD (App.JOB_TITLE_COL - 1) (.str "")) != "") &&
  (jsToLower (cellStr (r.getD (App.JOB_TITLE_COL - 1) (.str ""))) == jsToLower c.jobTitle)

/-- Whether a proposal sheet row would both be indexed under the candidate's
funder key and match the candidate's title in the lookup of `_proposalDataHandler`. -/
def Proposal.rowConflicts (c : Proposal.PCandidate) (r : List Cell) : Bool :=
Proposal.funderCellOk (r.getD (Proposal.PROP_FUNDER_COL - 1) (.str "")) &&
  (jsToLower (cellStr (r.getD (Proposal.PROP_FUNDER_COL - 1) (.str ""))) == jsToLower c.funderName) &&
  (cellStr (r.getD (Proposal.PROP_TITLE_COL - 1) (.str "")) != "") &&
  (jsToLower (cellStr (r.getD (Proposal.PROP_TITLE_COL - 1) (.str ""))) == jsToLower c.proposalTitle)

/-! Concrete instances used by witnesses and counterexamples. -/

/-- A persisted application row: Acme / Engineer, status and peak "Applied". -/
def exRow : List Cell :=
[.date 0, .date 1, .str "LinkedIn", .str "Acme", .str "Engineer",
 .str "Applied", .str "Applied", .date 1, .str "subj0", .str "link0", .str "id0", .str "notes"]

/-- Cache entry for `exRow` at array index 1 (sheet row 2). -/
def exEntry : App.CacheEntry := App.rowCacheEntry 1 exRow

/-- A tracker candidate for Acme / Engineer carrying status `st`. -/
def exCand (st : String) : App.Candidate :=
{ companyName := "Acme", jobTitle := "Engineer", applicationStatus := some st,
  msgId := "m1", emailSubject := "s1", emailPermaLink := "l1", emailDate := 5, now := 6 }

/-- A pending (same-batch, not yet written) cache entry: sentinel row -1, no row data. -/
def exPending : App.CacheEntry :=
{ row := -1, rowData := [], emailId := "idP", company := "Acme", title := "Engineer",
  status := .str "Applied", peakStatus := .str "Applied" }

/-- A persisted proposal row: Ford Foundation / Arts Program, status and peak "Under Review". -/
def exPRow : List Cell :=
[.date 0, .date 1, .str "Ford Foundation", .str "Arts Program", .str "Under Review",
 .str "Under Review", .date 1, .str "5000", .str "0", .str "ps", .str "pl", .str "pid", .str "pn"]

/-- Cache entry for `exPRow` at array index 1 (sheet row 2). -/
def exPEntry : Proposal.PCacheEntry := Proposal.rowCacheEntry 1 exPRow

/-- A proposal candidate for Ford Foundation / Arts Program carrying status `st`. -/
def exPCand (st : String) : Proposal.PCandidate :=
{ funderName := "Ford Foundation", proposalTitle := "Arts Program", submissionStatus := st,
  msgId := "pm1", emailSubject := "psubj", emailPermaLink := "plink", emailDate := 5, now := 6 }

/-- A proposal data row whose status cell is empty and whose last update is ancient. -/
def exStaleRowProp : List Cell :=
[.date 0, .date 1, .str "Funder", .str "Title", .str "", .str "", .date (-100),
 .str "", .str "", .str "s", .str "l", .str "i", .str "n"]

/-- An application data row whose status cell is empty and whose last update is ancient. -/
def exStaleRowApp : List Cell :=
[.date 0, .date 1, .str "P", .str "Acme", .str "T", .str "", .str "", .date (-100),
 .str "s", .str "l", .str "i", .str "n"]

/-! General list lemmas used throughout. -/

theorem getD_set_ne {α : Type} (l : List α) (i j : Nat) (a d : α) (h : i ≠ j) :
    (l.set i a).getD j d = l.getD j d := by
  simp [List.getD_eq_getElem?_getD, List.getElem?_set, h]

theorem getD_set_self_of_lt {α : Type} (l : List α) (i : Nat) (a d : α) (h : i < l.length) :
    (l.set i a).getD i d = a := by
  simp [List.getD_eq_getElem?_getD, List.getElem?_set, h]

/-- C3: a candidate with a manual-review key always yields a CREATE flagged for
manual review and never an UPDATE, for every content of the entity index, in
both instantiations of the engine. -/
theorem manual_review_always_creates :
    (∀ (c : App.Candidate) (idx : String → List App.CacheEntry),
      c.companyName = App.MANUAL_REVIEW_NEEDED ∨ c.jobTitle = App.MANUAL_REVIEW_NEEDED →
      (App.trackerReconcile c idx).updateInfo = none ∧
      (App.trackerReconcile c idx).newRowData = [App.createRowApp c] ∧
      (App.trackerReconcile c idx).requiresManualReview = true) ∧
    (∀ (c : Proposal.PCandidate) (idx : String → List Proposal.PCacheEntry),
      c.funderName = Proposal.MANUAL_REVIEW_NEEDED ∨ c.proposalTitle = Proposal.MANUAL_REVIEW_NEEDED →
      (Proposal.propReconcile c idx).updateInfo = none ∧
      (Proposal.propReconcile c idx).newRowData = [Proposal.createRowProp c] ∧
      (Proposal.propReconcile c idx).requiresManualReview = true) := by
  constructor
  · intro c idx h
    unfold App.trackerReconcile
    rcases h with h | h <;> simp [h]
  · intro c idx h
    unfold Proposal.propReconcile
    rcases h with h | h <;> simp [h]

/-- Witness for C3 at concrete inputs. -/
theorem manual_review_always_creates_witness :
    ((App.trackerReconcile { exCand "Applied" with companyName := "Manual Review Needed" }
        (fun _ => [exEntry])).updateInfo = none ∧
      (App.trackerReconcile { exCand "Applied" with companyName := "Manual Review Needed" }
        (fun _ => [exEntry])).newRowData =
        [App.createRowApp { exCand "Applied" with companyName := "Manual Review Needed" }] ∧
      (App.trackerReconcile { exCand "Applied" with companyName := "Manual Review Needed" }
        (fun _ => [exEntry])).requiresManualReview = true) ∧
    ((Proposal.propReconcile { exPCand "Submitted" with proposalTitle := "Manual Review Needed" }
        (fun _ => [exPEntry])).updateInfo = none ∧
      (Proposal.propReconcile { exPCand "Submitted" with proposalTitle := "Manual Review Needed" }
        (fun _ => [exPEntry])).newRowData =
        [Proposal.createRowProp { exPCand "Submitted" with proposalTitle := "Manual Review Needed" }] ∧
      (Proposal.propReconcile { exPCand "Submitted" with proposalTitle := "Manual Review Needed" }
        (fun _ => [exPEntry])).requiresManualReview = true) :=
  ⟨manual_review_always_creates.1 _ _ (Or.inl rfl),
   manual_review_always_creates.2 _ _ (Or.inr rfl)⟩

/-- Counterexample for C4: a later message of the same batch whose key pair
matches an entity created earlier in the same batch (a pending cache entry with
sentinel location -1) is reconciled as a second CREATE, not as an UPDATE, even
though the pending entry is found by the index lookup. -/
theorem same_batch_duplicate_creates_again :
    ((fun k => if k = "acme" then [exPending] else []) (jsToLower (exCand "Interviewing").companyName)).find?
        (App.titleMatches (exCand "Interviewing")) = some exPending ∧
    (App.trackerReconcile (exCand "Interviewing")
      (fun k => if k = "acme" then [exPending] else [])).updateInfo = none ∧
    (App.trackerReconcile (exCand "Interviewing")
      (fun k => if k = "acme" then [exPending] else [])).newRowData =
      [App.createRowApp (exCand "Interviewing")] := by
  refine ⟨by decide, by decide, by decide⟩

/-- C4 as amended: a candidate with valid keys whose index lookup finds a
pending entry (sentinel location -1) is reconciled as a CREATE; the update path
is taken only for persisted rows. -/
theorem pending_match_creates :
    ∀ (c : App.Candidate) (e : App.CacheEntry) (idx : String → List App.CacheEntry),
      c.companyName ≠ App.MANUAL_REVIEW_NEEDED → c.jobTitle ≠ App.MANUAL_REVIEW_NEEDED →
      (idx (jsToLower c.companyName)).find? (App.titleMatches c) = some e →
      e.row = -1 →
      (App.trackerReconcile c idx).updateInfo = none ∧
      (App.trackerReconcile c idx).newRowData = [App.createRowApp c] := by
  intro c e idx hc ht hfind hrow
  unfold App.trackerReconcile
  simp [hc, ht, hfind, hrow]

/-- Witness for the amended C4 at concrete inputs. -/
theorem pending_match_creates_witness :
    (App.trackerReconcile (exCand "Interviewing")
      (fun k => if k = "acme" then [exPending] else [])).updateInfo = none ∧
    (App.trackerReconcile (exCand "Interviewing")
      (fun k => if k = "acme" then [exPending] else [])).newRowData =
      [App.createRowApp (exCand "Interviewing")] :=
  pending_match_creates (exCand "Interviewing") exPending
    (fun k => if k = "acme" then [exPending] else [])
    (by decide) (by decide) (by decide) (by decide)

/-- Counterexample for C1: in the proposal instantiation a definitive rejection
("Declined", an override-terminal status per the claim) arriving on an entity
whose status is higher-ranked ("Under Review") does NOT replace the status: the
proposal merge rule has no override branch. -/
theorem proposal_declined_does_not_override :
    (Proposal.propUpdateValues (exPCand "Declined") exPEntry).getD
        (Proposal.PROP_STATUS_COL - 1) (.str "u") = Cell.str "Under Review" ∧
    Cell.str "Under Review" ≠ Cell.str Proposal.STATUS_DECLINED := by
  refine ⟨by decide, by decide⟩

/-- C1 as amended: on an UPDATE the application tracker replaces the status by
the candidate's status exactly when the candidate's rank is at least the rank of
the (trimmed, defaulted) existing status, or the candidate's status is the
designated override terminal "Rejected" or "Offer"; the proposal tracker
replaces it exactly when the candidate's rank is at least the existing rank,
with no override exception.  Unknown statuses rank 0. -/
theorem status_merge_rule :
    (∀ (c : App.Candidate) (e : App.CacheEntry),
      e.rowData.length = App.TOTAL_COLUMNS_IN_APP_SHEET → ∀ (d : Cell),
      (App.trackerUpdateValues c e).getD (App.STATUS_COL - 1) d =
        if App.rank (App.finalStatusToSet c) ≥ App.rank (App.statInSheet e)
            ∨ App.finalStatusToSet c = App.REJECTED_STATUS
            ∨ App.finalStatusToSet c = App.OFFER_STATUS
        then Cell.str (App.finalStatusToSet c)
        else e.rowData.getD (App.STATUS_COL - 1) d) ∧
    (∀ (c : Proposal.PCandidate) (e : Proposal.PCacheEntry),
      e.rowData.length = Proposal.TOTAL_COLUMNS_IN_PROPOSAL_SHEET → ∀ (d : Cell),
      (Proposal.propUpdateValues c e).getD (Proposal.PROP_STATUS_COL - 1) d =
        if Proposal.rank c.submissionStatus ≥ Proposal.rank (Proposal.statusInSheet e)
        then Cell.str c.submissionStatus
        else e.rowData.getD (Proposal.PROP_STATUS_COL - 1) d) := by
  constructor
  · intro c e hlen d
    unfold App.trackerUpdateValues
    simp only [App.statInSheet, App.STATUS_COL, App.PEAK_STATUS_COL,
      App.PROCESSED_TIMESTAMP_COL, App.LAST_UPDATE_DATE_COL, App.EMAIL_SUBJECT_COL,
      App.EMAIL_LINK_COL, App.EMAIL_ID_COL, App.TOTAL_COLUMNS_IN_APP_SHEET] at *
    simp [apply_ite (fun (l : List Cell) => (l[5]?).getD d),
      getD_set_ne, getD_set_self_of_lt, hlen, or_assoc, ge_iff_le]
  · intro c e hlen d
    unfold Proposal.propUpdateValues
    simp only [Proposal.statusInSheet, Proposal.PROP_STATUS_COL, Proposal.PROP_PEAK_STATUS_COL,
      Proposal.PROP_LAST_UPDATE_COL, Proposal.PROP_EMAIL_SUBJ_COL,
      Proposal.PROP_EMAIL_LINK_COL, Proposal.PROP_EMAIL_ID_COL,
      Proposal.TOTAL_COLUMNS_IN_PROPOSAL_SHEET] at *
    simp [apply_ite (fun (l : List Cell) => (l[4]?).getD d),
      getD_set_ne, getD_set_self_of_lt, hlen, ge_iff_le]

/-- Witness for the amended C1 at concrete inputs. -/
theorem status_merge_rule_witness :
    ((App.trackerUpdateValues (exCand "Rejected") exEntry).getD (App.STATUS_COL - 1) (.str "u") =
      if App.rank (App.finalStatusToSet (exCand "Rejected")) ≥ App.rank (App.statInSheet exEntry)
          ∨ App.finalStatusToSet (exCand "Rejected") = App.REJECTED_STATUS
          ∨ App.finalStatusToSet (exCand "Rejected") = App.OFFER_STATUS
      then Cell.str (App.finalStatusToSet (exCand "Rejected"))
      else exEntry.rowData.getD (App.STATUS_COL - 1) (.str "u")) ∧
    ((Proposal.propUpdateValues (exPCand "Awarded") exPEntry).getD
        (Proposal.PROP_STATUS_COL - 1) (.str "u") =
      if Proposal.rank (exPCand "Awarded").submissionStatus ≥
          Proposal.rank (Proposal.statusInSheet exPEntry)
      then Cell.str (exPCand "Awarded").submissionStatus
      else exPEntry.rowData.getD (Proposal.PROP_STATUS_COL - 1) (.str "u")) :=
  ⟨status_merge_rule.1 (exCand "Rejected") exEntry (by decide) (.str "u"),
   status_merge_rule.2 (exPCand "Awarded") exPEntry (by decide) (.str "u")⟩

/-- C2 failing trace: an entity persisted with status and peak "Applied" receives
"Interviewing" and then "Applied" within one batch.  After the first update the
live cache's peak is "Interviewing"; after the second update both the live
cache's peak and the queued row values regress to "Applied", because the handler
recomputes from the entry's stale `rowData` snapshot, which the engine never
refreshes.  This violates the claimed monotonicity of `peakStatus`. -/
theorem peak_status_regresses_within_batch :
    ((App.engineApplyToEntry exEntry (exCand "Interviewing")).1.peakStatus =
      Cell.str "Interviewing") ∧
    ((App.engineApplyToEntry (App.engineApplyToEntry exEntry (exCand "Interviewing")).1
        (exCand "Applied")).1.peakStatus = Cell.str "Applied") ∧
    (((App.engineApplyToEntry (App.engineApplyToEntry exEntry (exCand "Interviewing")).1
        (exCand "Applied")).2.getD []).getD (App.PEAK_STATUS_COL - 1) (.str "u") =
      Cell.str "Applied") ∧
    App.rank "Applied" < App.rank "Interviewing" := by
  refine ⟨by decide, by decide, by decide, by decide⟩

/-! Lemmas about the `threadProcessingOutcomes` object (claim C5). -/

theorem find_map_replace (k v : String) :
    ∀ (acc : List (String × String)), acc.any (fun p => p.1 == k) = true →
      (acc.map (fun p => if p.1 == k then (k, v) else p)).find? (fun p => p.1 == k) = some (k, v) := by
  intro acc h
  induction acc with
  | nil => simp at h
  | cons q rest ih =>
    rw [List.map_cons]
    by_cases hq : q.1 = k
    · have h1 : (if (q.1 == k) = true then (k, v) else q) = (k, v) := by simp [hq]
      rw [h1, List.find?_cons_of_pos]
      simp
    · have hq' : (q.1 == k) = false := by simp [hq]
      have h1 : (if (q.1 == k) = true then (k, v) else q) = q := by simp [hq']
      rw [h1, List.find?_cons_of_neg]
      · apply ih
        simpa [hq'] using h
      · simp [hq']

theorem find_map_keep (k k' v : String) (hne : k' ≠ k) :
    ∀ (acc : List (String × String)),
      (acc.map (fun p => if p.1 == k then (k, v) else p)).find? (fun p => p.1 == k') =
        acc.find? (fun p => p.1 == k') := by
  intro acc
  have hkk : (k == k') = false := by simp [Ne.symm hne]
  induction acc with
  | nil => simp
  | cons q rest ih =>
    rw [List.map_cons]
    by_cases hq : q.1 = k
    · have h1 : (if (q.1 == k) = true then (k, v) else q) = (k, v) := by simp [hq]
      have h2 : (q.1 == k') = false := by
        rw [hq]
        exact hkk
      rw [h1, List.find?_cons_of_neg, List.find?_cons_of_neg, ih]
      · simp [h2]
      · simp [hkk]
    · have hq' : (q.1 == k) = false := by simp [hq]
      have h1 : (if (q.1 == k) = true then (k, v) else q) = q := by simp [hq']
      rw [h1]
      by_cases hk : q.1 = k'
      · have h2 : (q.1 == k') = true := by simp [hk]
        rw [List.find?_cons_of_pos, List.find?_cons_of_pos] <;> simp [h2]
      · have h2 : (q.1 == k') = false := by simp [hk]
        rw [List.find?_cons_of_neg, List.find?_cons_of_neg, ih] <;> simp [h2]

theorem any_false_find_none (k : String) :
    ∀ (acc : List (String × String)), acc.any (fun p => p.1 == k) = false →
      acc.find? (fun p => p.1 == k) = none := by
  intro acc h
  induction acc with
  | nil => rfl
  | cons q rest ih =>
    simp only [List.any_cons, Bool.or_eq_false_iff] at h
    rw [List.find?_cons_of_neg]
    · exact ih h.2
    · simp [h.1]

theorem lookup_setOutcome_self (acc : List (String × String)) (k v : String) :
    Engine.lookupOutcome (Engine.setOutcome acc k v) k = some v := by
  unfold Engine.setOutcome Engine.lookupOutcome
  by_cases h : acc.any (fun p => p.1 == k) = true
  · rw [if_pos h, find_map_replace k v acc h]
    rfl
  · have h' : acc.any (fun p => p.1 == k) = false := Bool.eq_false_iff.mpr h
    have hnone : acc.find? (fun p => p.1 == k) = none := any_false_find_none k acc h'
    rw [if_neg (by simp [h']), List.find?_append, hnone, Option.none_or,
      List.find?_cons_of_pos]
    · rfl
    · simp

theorem lookup_setOutcome_ne (acc : List (String × String)) (k k' v : String) (hne : k' ≠ k) :
    Engine.lookupOutcome (Engine.setOutcome acc k v) k' = Engine.lookupOutcome acc k' := by
  unfold Engine.setOutcome Engine.lookupOutcome
  by_cases h : acc.any (fun p => p.1 == k) = true
  · rw [if_pos h, find_map_keep k k' v hne acc]
  · have hlast : ([(k, v)].find? (fun p => p.1 == k')) = none := by
      rw [List.find?_cons_of_neg, List.find?_nil]
      simp [Ne.symm hne]
    rw [if_neg h, List.find?_append, hlast, Option.or_none]

theorem lookup_foldl_outcomes (msgs : List Engine.MsgOutcome) (tid : String) :
    ∀ (acc : List (String × String)),
      Engine.lookupOutcome
        (msgs.foldl (fun a m => Engine.setOutcome a m.threadId (Engine.outcomeOf m)) acc) tid =
      match msgs.reverse.find? (fun m => m.threadId == tid) with
      | some m => some (Engine.outcomeOf m)
      | none => Engine.lookupOutcome acc tid := by
  induction msgs with
  | nil => intro acc; simp
  | cons m rest ih =>
    intro acc
    simp only [List.foldl_cons, List.reverse_cons]
    rw [ih, List.find?_append]
    cases hfind : rest.reverse.find? (fun x => x.threadId == tid) with
    | some m' => simp
    | none =>
      simp only [Option.none_or]
      by_cases ht : m.threadId = tid
      · subst ht
        rw [List.find?_cons_of_pos]
        · simp [lookup_setOutcome_self]
        · simp
      · rw [List.find?_cons_of_neg, List.find?_nil]
        · simpa using lookup_setOutcome_ne acc m.threadId tid (Engine.outcomeOf m) (fun h => ht h.symm)
        · simp [ht]

/-- Counterexample for C5: a thread whose first processed message required manual
review and whose later message resolved cleanly is recorded as 'done', not as the
worst outcome 'manual'. -/
theorem manual_then_done_records_done :
    Engine.lookupOutcome
        (Engine.runThreadOutcomes [{ threadId := "t1", manualOrThrew := true },
          { threadId := "t1", manualOrThrew := false }]) "t1" = some "done" ∧
    some "done" ≠ some "manual" := by
  refine ⟨by decide, by decide⟩

/-- C5 as amended: the recorded outcome of a thread is the outcome of the LAST
processed message of that thread (in processing order), not the worst outcome:
each message overwrites the thread's entry. -/
theorem thread_outcome_is_last_message :
    ∀ (msgs : List Engine.MsgOutcome) (tid : String),
      Engine.lookupOutcome (Engine.runThreadOutcomes msgs) tid =
        (msgs.reverse.find? (fun m => m.threadId == tid)).map Engine.outcomeOf := by
  intro msgs tid
  unfold Engine.runThreadOutcomes
  rw [lookup_foldl_outcomes]
  cases hfind : msgs.reverse.find? (fun m => m.threadId == tid) with
  | some m => simp
  | none => simp [Engine.lookupOutcome]

/-- Counterexample for C6: in the proposal sweep, a row whose status cell is
empty (hence not in the terminal set) and whose last update is far older than
the threshold is left completely unchanged, because the sweep additionally
requires the status cell to be truthy; the claim requires such a row to be
forced to the stale terminal value. -/
theorem stale_empty_status_proposal_untouched :
    Proposal.markStaleProposals [[Cell.str "h"], exStaleRowProp] 0 =
      [[Cell.str "h"], exStaleRowProp] ∧
    Proposal.isFinalStatus (exStaleRowProp.getD (Proposal.PROP_STATUS_COL - 1) (.str "")) = false ∧
    cellDateBefore (exStaleRowProp.getD (Proposal.PROP_LAST_UPDATE_COL - 1) (.str ""))
      (0 - Proposal.WEEKS_THRESHOLD * 7) = true := by
  refine ⟨by decide, by decide, by decide⟩

/-- C6 as amended: the application sweep sets status to Rejected and refreshes
the timestamp for exactly the rows whose status is not terminal and whose
last-update date is older than the 8-week threshold, leaving all other rows
unchanged; the proposal sweep does the same with Declined except that (i) it
additionally skips rows whose status cell is empty, and (ii) it also appends an
audit note to the notes cell of each row it updates.  Both sweeps leave the
header row untouched and process every data row independently. -/
theorem stale_sweep_rule :
    (∀ (now : Int) (row : List Cell),
      (App.isFinalStatus (row.getD (App.STATUS_COL - 1) (.str "")) = false →
        cellDateBefore (row.getD (App.LAST_UPDATE_DATE_COL - 1) (.str ""))
            (now - App.WEEKS_THRESHOLD * 7) = true →
        App.staleStepApp now row =
          (row.set (App.STATUS_COL - 1) (.str App.REJECTED_STATUS)).set
            (App.LAST_UPDATE_DATE_COL - 1) (.date now)) ∧
      (App.isFinalStatus (row.getD (App.STATUS_COL - 1) (.str "")) = true ∨
        cellDateBefore (row.getD (App.LAST_UPDATE_DATE_COL - 1) (.str ""))
            (now - App.WEEKS_THRESHOLD * 7) = false →
        App.staleStepApp now row = row)) ∧
    (∀ (now : Int) (row : List Cell),
      (cellFalsy (row.getD (Proposal.PROP_STATUS_COL - 1) (.str "")) = false →
        Proposal.isFinalStatus (row.getD (Proposal.PROP_STATUS_COL - 1) (.str "")) = false →
        cellDateBefore (row.getD (Proposal.PROP_LAST_UPDATE_COL - 1) (.str ""))
            (now - Proposal.WEEKS_THRESHOLD * 7) = true →
        Proposal.staleStepProp now row =
          ((row.set (Proposal.PROP_STATUS_COL - 1) (.str Proposal.STATUS_DECLINED)).set
              (Proposal.PROP_LAST_UPDATE_COL - 1) (.date now)).set (Proposal.PROP_NOTES_COL - 1)
            (.str (jsTrim (cellStr (row.getD (Proposal.PROP_NOTES_COL - 1) (.str "undefined")) ++
              Proposal.staleNoteText now)))) ∧
      (cellFalsy (row.getD (Proposal.PROP_STATUS_COL - 1) (.str "")) = true ∨
        Proposal.isFinalStatus (row.getD (Proposal.PROP_STATUS_COL - 1) (.str "")) = true ∨
        cellDateBefore (row.getD (Proposal.PROP_LAST_UPDATE_COL - 1) (.str ""))
            (now - Proposal.WEEKS_THRESHOLD * 7) = false →
        Proposal.staleStepProp now row = row)) ∧
    (∀ (header : List Cell) (rows : List (List Cell)) (now : Int),
      App.markStaleApplications (header :: rows) now = header :: rows.map (App.staleStepApp now) ∧
      Proposal.markStaleProposals (header :: rows) now =
        header :: rows.map (Proposal.staleStepProp now)) := by
  refine ⟨?_, ?_, ?_⟩
  · intro now row
    constructor
    · intro h1 h2
      unfold App.staleStepApp
      simp only [List.getD_eq_getElem?_getD] at h1 h2
      simp [h1, h2]
    · intro h
      unfold App.staleStepApp
      rcases h with h | h <;>
        (simp only [List.getD_eq_getElem?_getD] at h; simp [h])
  · intro now row
    constructor
    · intro h0 h1 h2
      unfold Proposal.staleStepProp
      simp only [List.getD_eq_getElem?_getD] at h0 h1 h2
      simp [h0, h1, h2]
    · intro h
      unfold Proposal.staleStepProp
      rcases h with h | h | h <;>
        (simp only [List.getD_eq_getElem?_getD] at h; simp [h])
  · intro header rows now
    exact ⟨rfl, rfl⟩

/-- Witness for the amended C6 at concrete inputs. -/
theorem stale_sweep_rule_witness :
    (App.staleStepApp 0 exStaleRowApp =
      (exStaleRowApp.set (App.STATUS_COL - 1) (.str App.REJECTED_STATUS)).set
        (App.LAST_UPDATE_DATE_COL - 1) (.date 0)) ∧
    (Proposal.staleStepProp 0 exStaleRowProp = exStaleRowProp) ∧
    (Proposal.staleStepProp 100 exPRow =
      ((exPRow.set (Proposal.PROP_STATUS_COL - 1) (.str Proposal.STATUS_DECLINED)).set
          (Proposal.PROP_LAST_UPDATE_COL - 1) (.date 100)).set (Proposal.PROP_NOTES_COL - 1)
        (.str (jsTrim (cellStr (exPRow.getD (Proposal.PROP_NOTES_COL - 1) (.str "undefined")) ++
          Proposal.staleNoteText 100)))) :=
  ⟨(stale_sweep_rule.1 0 exStaleRowApp).1 (by decide) (by decide),
   (stale_sweep_rule.2.1 0 exStaleRowProp).2 (Or.inl (by decide)),
   (stale_sweep_rule.2.1 100 exPRow).1 (by decide) (by decide) (by decide)⟩

/-- Counterexample for C9: a 200 response whose body is not valid JSON makes
`JSON.parse(responseBody)` throw inside the `try`; the exception is caught and
the call is RETRIED (a second fetch happens), rather than returning null
immediately as the claim requires for a malformed response. -/
theorem malformed_body_is_retried :
    Gemini.callGeminiAPI [.resp 200 .notJson, .resp 200 .notJson] = (none, 2) ∧
    (2 : Nat) ≠ 1 := by
  refine ⟨by decide, by decide⟩

/-- C9 as amended: the extractor call retries on HTTP 429 and on any exception
raised during an attempt — a transport error or a 200 response whose top-level
body fails JSON parsing; a 200 response with a parseable body but without the
expected candidate text, a 200 response whose extracted text fails the inner
JSON parse, and any non-200 non-429 code all return null immediately without a
further attempt; the total number of fetch attempts never exceeds the cap. -/
theorem gemini_retry_policy :
    (∀ (n : Nat) (rest : List Gemini.Attempt),
      Gemini.loop (n + 1) (.resp 200 .noCandidateText :: rest) = (none, 1) ∧
      Gemini.loop (n + 1) (.resp 200 .innerBad :: rest) = (none, 1) ∧
      (∀ (v : String), Gemini.loop (n + 1) (.resp 200 (.innerGood v) :: rest) = (some v, 1))) ∧
    (∀ (n : Nat) (rest : List Gemini.Attempt) (code : Int) (body : Gemini.Body),
      code ≠ 200 → code ≠ 429 →
      Gemini.loop (n + 1) (.resp code body :: rest) = (none, 1)) ∧
    (∀ (n : Nat) (rest : List Gemini.Attempt) (body : Gemini.Body),
      Gemini.loop (n + 1) (.resp 429 body :: rest) =
        ((Gemini.loop n rest).1, (Gemini.loop n rest).2 + 1) ∧
      Gemini.loop (n + 1) (.resp 200 .notJson :: rest) =
        ((Gemini.loop n rest).1, (Gemini.loop n rest).2 + 1) ∧
      Gemini.loop (n + 1) (.exn :: rest) =
        ((Gemini.loop n rest).1, (Gemini.loop n rest).2 + 1)) ∧
    (∀ (n : Nat) (attempts : List Gemini.Attempt), (Gemini.loop n attempts).2 ≤ n) := by
  refine ⟨?_, ?_, ?_, ?_⟩
  · intro n rest
    refine ⟨by simp [Gemini.loop], by simp [Gemini.loop], fun v => by simp [Gemini.loop]⟩
  · intro n rest code body h1 h2
    simp [Gemini.loop, h1, h2]
  · intro n rest body
    refine ⟨by simp [Gemini.loop], by simp [Gemini.loop], by simp [Gemini.loop]⟩
  · intro n
    induction n with
    | zero => intro attempts; simp [Gemini.loop]
    | succ n ih =>
      intro attempts
      match attempts with
      | [] => simp [Gemini.loop]
      | .exn :: rest =>
        have := ih rest
        simp [Gemini.loop]
        omega
      | .resp code body :: rest =>
        by_cases hc : code = 200
        · subst hc
          cases body with
          | notJson =>
            have := ih rest
            simp [Gemini.loop]
            omega
          | noCandidateText => simp [Gemini.loop]
          | innerBad => simp [Gemini.loop]
          | innerGood v => simp [Gemini.loop]
        · by_cases hc' : code = 429
          · subst hc'
            have := ih rest
            simp [Gemini.loop]
            omega
          · simp [Gemini.loop, hc, hc']

/-- Witness for the amended C9 at concrete inputs. -/
theorem gemini_retry_policy_witness :
    Gemini.loop 2 [.resp 500 .notJson] = (none, 1) ∧
    Gemini.loop 2 [.resp 200 .innerBad] = (none, 1) ∧
    Gemini.loop 2 [.resp 429 .notJson, .resp 200 (.innerGood "ok")] = (some "ok", 2) ∧
    (Gemini.loop 2 [.resp 429 .notJson, .resp 429 .notJson, .resp 429 .notJson]).2 ≤ 2 :=
  ⟨gemini_retry_policy.2.1 1 [] 500 .notJson (by decide) (by decide),
   (gemini_retry_policy.1 1 []).2.1,
   by
    have h := (gemini_retry_policy.2.2.1 1 [.resp 200 (.innerGood "ok")] .notJson).1
    rw [h]
    decide,
   gemini_retry_policy.2.2.2 2 [.resp 429 .notJson, .resp 429 .notJson, .resp 429 .notJson]⟩

/-- C10: frame effect of a reconciliation UPDATE.  In the application tracker
only the processed-timestamp, status, peak-status, last-update, subject, link
and email-id cells of the matched row may change: every other column (platform,
company, job title, notes, and anything else) keeps its prior value.  In the
proposal tracker only the status, peak-status, last-update, subject, link and
email-id cells may change (the processed timestamp is not even touched there).
The engine's row-targeted write replaces only the targeted row; every other row
of the table keeps its prior values. -/
theorem update_frame :
    (∀ (c : App.Candidate) (e : App.CacheEntry) (j : Nat) (d : Cell),
      j ≠ App.PROCESSED_TIMESTAMP_COL - 1 → j ≠ App.STATUS_COL - 1 →
      j ≠ App.PEAK_STATUS_COL - 1 → j ≠ App.LAST_UPDATE_DATE_COL - 1 →
      j ≠ App.EMAIL_SUBJECT_COL - 1 → j ≠ App.EMAIL_LINK_COL - 1 →
      j ≠ App.EMAIL_ID_COL - 1 →
      (App.trackerUpdateValues c e).getD j d = e.rowData.getD j d) ∧
    (∀ (c : Proposal.PCandidate) (e : Proposal.PCacheEntry) (j : Nat) (d : Cell),
      j ≠ Proposal.PROP_PROC_TS_COL - 1 → j ≠ Proposal.PROP_STATUS_COL - 1 →
      j ≠ Proposal.PROP_PEAK_STATUS_COL - 1 → j ≠ Proposal.PROP_LAST_UPDATE_COL - 1 →
      j ≠ Proposal.PROP_EMAIL_SUBJ_COL - 1 → j ≠ Proposal.PROP_EMAIL_LINK_COL - 1 →
      j ≠ Proposal.PROP_EMAIL_ID_COL - 1 →
      (Proposal.propUpdateValues c e).getD j d = e.rowData.getD j d) ∧
    (∀ (sheet : List (List Cell)) (row : Int) (values : List Cell) (i : Nat),
      i ≠ (row - 1).toNat →
      (App.applyUpdateWrite sheet row values).getD i [] = sheet.getD i [] ∧
      (Proposal.applyUpdateWrite sheet row values).getD i [] = sheet.getD i []) := by
  refine ⟨?_, ?_, ?_⟩
  · intro c e j d h0 h5 h6 h7 h8 h9 h10
    norm_num [App.PROCESSED_TIMESTAMP_COL, App.STATUS_COL, App.PEAK_STATUS_COL,
      App.LAST_UPDATE_DATE_COL, App.EMAIL_SUBJECT_COL, App.EMAIL_LINK_COL,
      App.EMAIL_ID_COL] at h0 h5 h6 h7 h8 h9 h10
    unfold App.trackerUpdateValues
    simp only [App.PROCESSED_TIMESTAMP_COL, App.STATUS_COL, App.PEAK_STATUS_COL,
      App.LAST_UPDATE_DATE_COL, App.EMAIL_SUBJECT_COL, App.EMAIL_LINK_COL, App.EMAIL_ID_COL]
    simp [apply_ite (fun (l : List Cell) => (l[j]?).getD d), getD_set_ne,
      Ne.symm h0, Ne.symm h5, Ne.symm h6, Ne.symm h7, Ne.symm h8, Ne.symm h9, Ne.symm h10]
  · intro c e j d h0 h4 h5 h6 h9 h10 h11
    norm_num [Proposal.PROP_PROC_TS_COL, Proposal.PROP_STATUS_COL,
      Proposal.PROP_PEAK_STATUS_COL, Proposal.PROP_LAST_UPDATE_COL,
      Proposal.PROP_EMAIL_SUBJ_COL, Proposal.PROP_EMAIL_LINK_COL,
      Proposal.PROP_EMAIL_ID_COL] at h0 h4 h5 h6 h9 h10 h11
    unfold Proposal.propUpdateValues
    simp only [Proposal.PROP_STATUS_COL, Proposal.PROP_PEAK_STATUS_COL,
      Proposal.PROP_LAST_UPDATE_COL, Proposal.PROP_EMAIL_SUBJ_COL,
      Proposal.PROP_EMAIL_LINK_COL, Proposal.PROP_EMAIL_ID_COL]
    simp [apply_ite (fun (l : List Cell) => (l[j]?).getD d), getD_set_ne,
      Ne.symm h4, Ne.symm h5, Ne.symm h6, Ne.symm h9, Ne.symm h10, Ne.symm h11]
  · intro sheet row values i hi
    unfold App.applyUpdateWrite Proposal.applyUpdateWrite
    exact ⟨getD_set_ne sheet ((row - 1).toNat) i values [] (Ne.symm hi),
      getD_set_ne sheet ((row - 1).toNat) i values [] (Ne.symm hi)⟩

/-- Witness for C10 at concrete inputs (the company, notes and a distinct row). -/
theorem update_frame_witness :
    ((App.trackerUpdateValues (exCand "Offer") exEntry).getD 3 (.str "u") =
      exEntry.rowData.getD 3 (.str "u")) ∧
    ((Proposal.propUpdateValues (exPCand "Awarded") exPEntry).getD 2 (.str "u") =
      exPEntry.rowData.getD 2 (.str "u")) ∧
    ((App.applyUpdateWrite [[Cell.str "h"], exRow, exStaleRowApp] 2 (App.trackerUpdateValues (exCand "Offer") exEntry)).getD 2 [] =
      [[Cell.str "h"], exRow, exStaleRowApp].getD 2 []) :=
  ⟨update_frame.1 (exCand "Offer") exEntry 3 (.str "u")
      (by decide) (by decide) (by decide) (by decide) (by decide) (by decide) (by decide),
   update_frame.2.1 (exPCand "Awarded") exPEntry 2 (.str "u")
      (by decide) (by decide) (by decide) (by decide) (by decide) (by decide) (by decide),
   (update_frame.2.2 [[Cell.str "h"], exRow, exStaleRowApp] 2
      (App.trackerUpdateValues (exCand "Offer") exEntry) 2 (by decide)).1⟩

/-! Lemmas about the message sort (claim C8). -/

theorem insertByDate_perm (m : Engine.GMessage) (l : List Engine.GMessage) :
    (Engine.insertByDate m l).Perm (m :: l) := by
  induction l with
  | nil => simp [Engine.insertByDate]
  | cons x xs ih =>
    unfold Engine.insertByDate
    by_cases h : m.date ≤ x.date
    · simp [h]
    · simp only [if_neg h]
      exact (ih.cons x).trans (List.Perm.swap m x xs)

theorem sortMessages_perm (l : List Engine.GMessage) : (Engine.sortMessages l).Perm l := by
  induction l with
  | nil => simp [Engine.sortMessages]
  | cons m ms ih =>
    unfold Engine.sortMessages
    exact (insertByDate_perm m (Engine.sortMessages ms)).trans (ih.cons m)

theorem pairwise_insertByDate (m : Engine.GMessage) (l : List Engine.GMessage)
    (h : l.Pairwise (fun a b => a.date ≤ b.date)) :
    (Engine.insertByDate m l).Pairwise (fun a b => a.date ≤ b.date) := by
  induction l with
  | nil => simp [Engine.insertByDate]
  | cons x xs ih =>
    rcases List.pairwise_cons.mp h with ⟨hx, hxs⟩
    unfold Engine.insertByDate
    by_cases hle : m.date ≤ x.date
    · simp only [if_pos hle]
      refine List.pairwise_cons.mpr ⟨?_, h⟩
      intro b hb
      rcases List.mem_cons.mp hb with hb | hb
      · rw [hb]
        exact hle
      · exact le_trans hle (hx b hb)
    · simp only [if_neg hle]
      refine List.pairwise_cons.mpr ⟨?_, ih hxs⟩
      intro b hb
      rcases List.mem_cons.mp ((insertByDate_perm m xs).mem_iff.mp hb) with hb | hb
      · rw [hb]
        exact le_of_lt (lt_of_not_ge hle)
      · exact hx b hb

theorem sortMessages_pairwise (l : List Engine.GMessage) :
    (Engine.sortMessages l).Pairwise (fun a b => a.date ≤ b.date) := by
  induction l with
  | nil => simp [Engine.sortMessages]
  | cons m ms ih =>
    unfold Engine.sortMessages
    exact pairwise_insertByDate m (Engine.sortMessages ms) ih

theorem sorted_perm_nodup_eq :
    ∀ (l₁ l₂ : List Engine.GMessage), l₁.Perm l₂ →
      (l₁.map Engine.GMessage.date).Nodup →
      l₁.Pairwise (fun a b => a.date ≤ b.date) →
      l₂.Pairwise (fun a b => a.date ≤ b.date) → l₁ = l₂ := by
  intro l₁
  induction l₁ with
  | nil =>
    intro l₂ hp _ _ _
    exact (hp.symm.eq_nil).symm
  | cons a t₁ ih =>
    intro l₂ hp hnd hs₁ hs₂
    match l₂ with
    | [] => exact absurd hp.eq_nil (by simp)
    | b :: t₂ =>
      by_cases hab : a = b
      · subst hab
        have ht : t₁.Perm t₂ := hp.cons_inv
        have hnd' : (t₁.map Engine.GMessage.date).Nodup := (List.nodup_cons.mp hnd).2
        have := ih t₂ ht hnd' (List.pairwise_cons.mp hs₁).2 (List.pairwise_cons.mp hs₂).2
        rw [this]
      · have hbmem : b ∈ a :: t₁ := hp.symm.subset (List.mem_cons_self b t₂)
        have hamem : a ∈ b :: t₂ := hp.subset (List.mem_cons_self a t₁)
        rcases List.mem_cons.mp hbmem with hb | hb
        · exact absurd hb.symm hab
        · rcases List.mem_cons.mp hamem with ha | ha
          · exact absurd ha hab
          · have h₁ : a.date ≤ b.date := (List.pairwise_cons.mp hs₁).1 b hb
            have h₂ : b.date ≤ a.date := (List.pairwise_cons.mp hs₂).1 a ha
            have heq : b.date = a.date := le_antisymm h₂ h₁
            have : a.date ∈ t₁.map Engine.GMessage.date :=
              List.mem_map.mpr ⟨b, hb, heq⟩
            exact absurd this (List.nodup_cons.mp hnd).1

/-- C8: the engine processes the flattened collection of all fetched messages in
ascending order of message timestamp: the processed sequence is sorted by date
and is a permutation of the flattened messages, and — when the timestamps are
pairwise distinct — the processed sequence is the same for every fetch order
(any permutation of the flattened messages sorts to the same sequence). -/
theorem batch_processes_messages_chronologically :
    ∀ (threads : List (List Engine.GMessage)),
      (Engine.sortMessages (Engine.flattenMessages threads)).Pairwise
        (fun a b => a.date ≤ b.date) ∧
      (Engine.sortMessages (Engine.flattenMessages threads)).Perm
        (Engine.flattenMessages threads) ∧
      (∀ (threads2 : List (List Engine.GMessage)),
        (Engine.flattenMessages threads2).Perm (Engine.flattenMessages threads) →
        ((Engine.flattenMessages threads).map Engine.GMessage.date).Nodup →
        Engine.sortMessages (Engine.flattenMessages threads2) =
          Engine.sortMessages (Engine.flattenMessages threads)) := by
  intro threads
  refine ⟨sortMessages_pairwise _, sortMessages_perm _, ?_⟩
  intro threads2 hperm hnodup
  have hp : (Engine.sortMessages (Engine.flattenMessages threads2)).Perm
      (Engine.sortMessages (Engine.flattenMessages threads)) :=
    ((sortMessages_perm _).trans hperm).trans (sortMessages_perm _).symm
  have hmapperm : ((Engine.sortMessages (Engine.flattenMessages threads2)).map
      Engine.GMessage.date).Perm ((Engine.flattenMessages threads).map Engine.GMessage.date) :=
    ((sortMessages_perm _).trans hperm).map _
  exact sorted_perm_nodup_eq _ _ hp (hmapperm.nodup_iff.mpr hnodup)
    (sortMessages_pairwise _) (sortMessages_pairwise _)

/-- Witness for C8 at concrete inputs: two thread fetch orders with distinct
timestamps sort to the same chronological sequence. -/
theorem batch_processes_messages_chronologically_witness :
    (Engine.sortMessages (Engine.flattenMessages
        [[{ msgId := "a", threadId := "t1", date := 5 }],
         [{ msgId := "b", threadId := "t2", date := 3 },
          { msgId := "c", threadId := "t2", date := 4 }]])).Pairwise
      (fun a b => a.date ≤ b.date) ∧
    Engine.sortMessages (Engine.flattenMessages
        [[{ msgId := "b", threadId := "t2", date := 3 },
          { msgId := "c", threadId := "t2", date := 4 }],
         [{ msgId := "a", threadId := "t1", date := 5 }]]) =
      Engine.sortMessages (Engine.flattenMessages
        [[{ msgId := "a", threadId := "t1", date := 5 }],
         [{ msgId := "b", threadId := "t2", date := 3 },
          { msgId := "c", threadId := "t2", date := 4 }]]) :=
  ⟨(batch_processes_messages_chronologically _).1,
   (batch_processes_messages_chronologically _).2.2 _ (by decide) (by decide)⟩

/-! Lemmas about index construction (claim C7). -/

theorem buildEntriesFromApp_append (xs ys : List (List Cell)) :
    ∀ (i : Nat), App.buildEntriesFrom i (xs ++ ys) =
      App.buildEntriesFrom i xs ++ App.buildEntriesFrom (i + xs.length) ys := by
  induction xs with
  | nil => intro i; simp [App.buildEntriesFrom]
  | cons r rest ih =>
    intro i
    simp only [List.cons_append, App.buildEntriesFrom, List.append_eq, ih (i + 1),
      List.length_cons, List.append_assoc]
    have h : i + 1 + rest.length = i + (rest.length + 1) := by omega
    rw [h]

theorem buildEntriesFromProp_append (xs ys : List (List Cell)) :
    ∀ (i : Nat), Proposal.buildEntriesFrom i (xs ++ ys) =
      Proposal.buildEntriesFrom i xs ++ Proposal.buildEntriesFrom (i + xs.length) ys := by
  induction xs with
  | nil => intro i; simp [Proposal.buildEntriesFrom]
  | cons r rest ih =>
    intro i
    simp only [List.cons_append, Proposal.buildEntriesFrom, List.append_eq, ih (i + 1),
      List.length_cons, List.append_assoc]
    have h : i + 1 + rest.length = i + (rest.length + 1) := by omega
    rw [h]

theorem findApp_entries_none (c : App.Candidate) :
    ∀ (rows : List (List Cell)) (i : Nat),
      (∀ r ∈ rows, App.rowConflicts c r = false) →
      ((App.buildEntriesFrom i rows).filter
          (fun e => jsToLower e.company == jsToLower c.companyName)).find?
        (App.titleMatches c) = none := by
  intro rows
  induction rows with
  | nil => intro i _; rfl
  | cons r rest ih =>
    intro i h
    have hr := h r (List.mem_cons_self r rest)
    have hrest : ∀ x ∈ rest, App.rowConflicts c x = false :=
      fun x hx => h x (List.mem_cons.mpr (Or.inr hx))
    unfold App.buildEntriesFrom
    by_cases hok : App.companyCellOk (r.getD (App.COMPANY_COL - 1) (.str "")) = true
    · rw [if_pos hok, List.singleton_append, List.filter_cons]
      by_cases hkey : (jsToLower (App.rowCacheEntry i r).company ==
          jsToLower c.companyName) = true
      · rw [if_pos hkey, List.find?_cons_of_neg]
        · exact ih (i + 1) hrest
        · have hkey' : (jsToLower (cellStr (r.getD (App.COMPANY_COL - 1) (.str ""))) ==
              jsToLower c.companyName) = true := hkey
          simp only [App.rowConflicts, hok, hkey', Bool.true_and,
            Bool.and_eq_false_iff] at hr
          simp only [App.titleMatches, App.rowCacheEntry]
          rcases hr with hr | hr <;>
            (simp only [List.getD_eq_getElem?_getD] at hr; simp [hr])
      · rw [if_neg hkey]
        exact ih (i + 1) hrest
    · rw [if_neg hok, List.nil_append]
      exact ih (i + 1) hrest

theorem findProp_entries_none (c : Proposal.PCandidate) :
    ∀ (rows : List (List Cell)) (i : Nat),
      (∀ r ∈ rows, Proposal.rowConflicts c r = false) →
      ((Proposal.buildEntriesFrom i rows).filter
          (fun e => jsToLower e.funder == jsToLower c.funderName)).find?
        (Proposal.titleMatches c) = none := by
  intro rows
  induction rows with
  | nil => intro i _; rfl
  | cons r rest ih =>
    intro i h
    have hr := h r (List.mem_cons_self r rest)
    have hrest : ∀ x ∈ rest, Proposal.rowConflicts c x = false :=
      fun x hx => h x (List.mem_cons.mpr (Or.inr hx))
    unfold Proposal.buildEntriesFrom
    by_cases hok : Proposal.funderCellOk (r.getD (Proposal.PROP_FUNDER_COL - 1) (.str "")) = true
    · rw [if_pos hok, List.singleton_append, List.filter_cons]
      by_cases hkey : (jsToLower (Proposal.rowCacheEntry i r).funder ==
          jsToLower c.funderName) = true
      · rw [if_pos hkey, List.find?_cons_of_neg]
        · exact ih (i + 1) hrest
        · have hkey' : (jsToLower (cellStr (r.getD (Proposal.PROP_FUNDER_COL - 1) (.str ""))) ==
              jsToLower c.funderName) = true := hkey
          simp only [Proposal.rowConflicts, hok, hkey', Bool.true_and,
            Bool.and_eq_false_iff] at hr
          simp only [Proposal.titleMatches, Proposal.rowCacheEntry]
          rcases hr with hr | hr <;>
            (simp only [List.getD_eq_getElem?_getD] at hr; simp [hr])
      · rw [if_neg hkey]
        exact ih (i + 1) hrest
    · rw [if_neg hok, List.nil_append]
      exact ih (i + 1) hrest

/-- C7: re-processing a message whose keys extract identically (non-sentinel,
usable as index key) when the Entity Index is built from a sheet containing the
row created by the first processing — and no earlier row matches the same
(company, title) key — yields an UPDATE targeting exactly that row, and no new
row, in both instantiations of the engine. -/
theorem reprocessing_updates_same_row :
    (∀ (c : App.Candidate) (header : List Cell) (pre post : List (List Cell)),
      c.companyName ≠ App.MANUAL_REVIEW_NEEDED → c.jobTitle ≠ App.MANUAL_REVIEW_NEEDED →
      jsTrim c.companyName ≠ "" → c.jobTitle ≠ "" →
      (∀ r ∈ pre, App.rowConflicts c r = false) →
      ((App.trackerReconcile c
          (App.buildIndexApp (header :: (pre ++ App.createRowApp c :: post)))).updateInfo.map
        (fun u => u.row)) = some ((pre.length : Int) + 2) ∧
      (App.trackerReconcile c
          (App.buildIndexApp (header :: (pre ++ App.createRowApp c :: post)))).newRowData = []) ∧
    (∀ (c : Proposal.PCandidate) (header : List Cell) (pre post : List (List Cell)),
      c.funderName ≠ Proposal.MANUAL_REVIEW_NEEDED →
      c.proposalTitle ≠ Proposal.MANUAL_REVIEW_NEEDED →
      jsTrim c.funderName ≠ "" → c.proposalTitle ≠ "" →
      (∀ r ∈ pre, Proposal.rowConflicts c r = false) →
      ((Proposal.propReconcile c
          (Proposal.buildIndexProp (header :: (pre ++ Proposal.createRowProp c :: post)))).updateInfo.map
        (fun u => u.row)) = some ((pre.length : Int) + 2) ∧
      (Proposal.propReconcile c
          (Proposal.buildIndexProp (header :: (pre ++ Proposal.createRowProp c :: post)))).newRowData = []) := by
  constructor
  · intro c header pre post hc ht htrim hne hpre
    have hdrop : (header :: (pre ++ App.createRowApp c :: post)).drop 1 =
        pre ++ App.createRowApp c :: post := rfl
    have hok : App.companyCellOk ((App.createRowApp c).getD (App.COMPANY_COL - 1) (.str "")) = true := by
      have hval : (App.createRowApp c).getD (App.COMPANY_COL - 1) (.str "") = .str c.companyName := rfl
      rw [hval]
      simp [App.companyCellOk, htrim]
    have hcons : App.buildEntriesFrom (1 + pre.length) (App.createRowApp c :: post) =
        App.rowCacheEntry (1 + pre.length) (App.createRowApp c) ::
          App.buildEntriesFrom (1 + pre.length + 1) post := by
      unfold App.buildEntriesFrom
      rw [if_pos hok, List.singleton_append]
      cases post <;> rfl
    have hentc : (App.rowCacheEntry (1 + pre.length) (App.createRowApp c)).company = c.companyName := rfl
    have hentt : (App.rowCacheEntry (1 + pre.length) (App.createRowApp c)).title = c.jobTitle := rfl
    have hkey : (jsToLower (App.rowCacheEntry (1 + pre.length) (App.createRowApp c)).company ==
        jsToLower c.companyName) = true := by
      rw [hentc]
      simp
    have htm : App.titleMatches c (App.rowCacheEntry (1 + pre.length) (App.createRowApp c)) = true := by
      simp [App.titleMatches, hentt, hne]
    have hfind : (App.buildIndexApp (header :: (pre ++ App.createRowApp c :: post))
        (jsToLower c.companyName)).find? (App.titleMatches c) =
        some (App.rowCacheEntry (1 + pre.length) (App.createRowApp c)) := by
      unfold App.buildIndexApp
      rw [hdrop, buildEntriesFromApp_append pre (App.createRowApp c :: post) 1, hcons,
        List.filter_append, List.find?_append, findApp_entries_none c pre 1 hpre,
        Option.none_or, List.filter_cons, if_pos hkey, List.find?_cons_of_pos _ htm]
    have hrow : (App.rowCacheEntry (1 + pre.length) (App.createRowApp c)).row =
        (pre.length : Int) + 2 := by
      simp only [App.rowCacheEntry]
      push_cast
      omega
    have hrowne : (App.rowCacheEntry (1 + pre.length) (App.createRowApp c)).row ≠ -1 := by
      rw [hrow]
      omega
    have hne2 : ¬((pre.length : Int) + 2 = -1) := by omega
    refine ⟨?_, ?_⟩ <;>
      simp [App.trackerReconcile, hc, ht, hfind, hrowne, hrow, hne2]
  · intro c header pre post hc ht htrim hne hpre
    have hdrop : (header :: (pre ++ Proposal.createRowProp c :: post)).drop 1 =
        pre ++ Proposal.createRowProp c :: post := rfl
    have hok : Proposal.funderCellOk ((Proposal.createRowProp c).getD
        (Proposal.PROP_FUNDER_COL - 1) (.str "")) = true := by
      have hval : (Proposal.createRowProp c).getD (Proposal.PROP_FUNDER_COL - 1) (.str "") =
          .str c.funderName := rfl
      rw [hval]
      simp [Proposal.funderCellOk, htrim]
    have hcons : Proposal.buildEntriesFrom (1 + pre.length) (Proposal.createRowProp c :: post) =
        Proposal.rowCacheEntry (1 + pre.length) (Proposal.createRowProp c) ::
          Proposal.buildEntriesFrom (1 + pre.length + 1) post := by
      unfold Proposal.buildEntriesFrom
      rw [if_pos hok, List.singleton_append]
      cases post <;> rfl
    have hentc : (Proposal.rowCacheEntry (1 + pre.length) (Proposal.createRowProp c)).funder =
        c.funderName := rfl
    have hentt : (Proposal.rowCacheEntry (1 + pre.length) (Proposal.createRowProp c)).title =
        c.proposalTitle := rfl
    have hkey : (jsToLower (Proposal.rowCacheEntry (1 + pre.length)
        (Proposal.createRowProp c)).funder == jsToLower c.funderName) = true := by
      rw [hentc]
      simp
    have htm : Proposal.titleMatches c (Proposal.rowCacheEntry (1 + pre.length)
        (Proposal.createRowProp c)) = true := by
      simp [Proposal.titleMatches, hentt, hne]
    have hfind : (Proposal.buildIndexProp (header :: (pre ++ Proposal.createRowProp c :: post))
        (jsToLower c.funderName)).find? (Proposal.titleMatches c) =
        some (Proposal.rowCacheEntry (1 + pre.length) (Proposal.createRowProp c)) := by
      unfold Proposal.buildIndexProp
      rw [hdrop, buildEntriesFromProp_append pre (Proposal.createRowProp c :: post) 1, hcons,
        List.filter_append, List.find?_append, findProp_entries_none c pre 1 hpre,
        Option.none_or, List.filter_cons, if_pos hkey, List.find?_cons_of_pos _ htm]
    have hrow : (Proposal.rowCacheEntry (1 + pre.length) (Proposal.createRowProp c)).row =
        (pre.length : Int) + 2 := by
      simp only [Proposal.rowCacheEntry]
      push_cast
      omega
    refine ⟨?_, ?_⟩ <;>
      simp [Proposal.propReconcile, hc, ht, hfind, hrow]

/-- Witness for C7 at concrete inputs (one unrelated earlier row; targeted row 3). -/
theorem reprocessing_updates_same_row_witness :
    ((App.trackerReconcile (exCand "Interviewing")
        (App.buildIndexApp ([Cell.str "h"] ::
          ([exStaleRowApp] ++ App.createRowApp (exCand "Interviewing") :: [])))).updateInfo.map
      (fun u => u.row)) = some (((1 : Nat) : Int) + 2) ∧
    ((Proposal.propReconcile (exPCand "Submitted")
        (Proposal.buildIndexProp ([Cell.str "h"] ::
          ([] ++ Proposal.createRowProp (exPCand "Submitted") :: [])))).updateInfo.map
      (fun u => u.row)) = some (((0 : Nat) : Int) + 2) :=
  ⟨((reprocessing_updates_same_row.1 (exCand "Interviewing") [Cell.str "h"]
      [exStaleRowApp] [] (by decide) (by decide) (by decide) (by decide) (by decide)).1),
   ((reprocessing_updates_same_row.2 (exPCand "Submitted") [Cell.str "h"]
      [] [] (by decide) (by decide) (by decide) (by decide) (by decide)).1)⟩
